import Mathlib

/-!
Shallow embedding of the repository-acquisition subsystem of pop-cli:
`crates/pop-parachains/src/utils/git.rs` (struct `Git`, struct `GitHub`) and
`src/helpers.rs` (the package-level `clone_and_degit` / `fetch_latest_tag`).

Pure string/URL/JSON functions are translated directly.  Effectful git and
filesystem operations (network clones, revision resolution, metadata removal)
are modelled by an explicit environment (`GitEnv`) supplying each external
outcome, and each operation returns the list of externally visible actions it
performed together with an `Outcome` (ok / error / panic).
-/

/-- Error values as used by `git.rs`.  The crate's `errors::Error` enum itself
is outside the four source files; the constructors below model exactly the
variants constructed in `git.rs` (`Error::Git`, `Error::Config`,
`Error::from(url::ParseError)`) plus the anyhow-wrapped `git2::Error` and the
`std::io::Error` produced by `fs::remove_dir_all`. -/
inductive Error where
  | Git2 (msg : String)
  | Git (msg : String)
  | Config (msg : String)
  | UrlParse
  | Fs (msg : String)
deriving DecidableEq, Repr

/-- Result of a Rust call in the embedding: normal return, `Err` propagated
with `?`, or a Rust panic (from `.expect(..)` / `.unwrap()` / slicing). -/
inductive Outcome (α : Type) where
  | ok (a : α)
  | err (e : Error)
  | panicked (msg : String)
deriving DecidableEq, Repr

/-- The view of a parsed `url::Url` used by `git.rs`: `host_str()`, `path()`
and whether the URL is cannot-be-a-base (in which case `path_segments()` is
`None`).  For base URLs the path always starts with a slash. -/
structure Url where
  host : Option String
  path : String
  cannotBeABase : Bool
deriving DecidableEq, Repr

/-- Rust's byte slice `&s[1..]`: `none` models the panic raised on an empty
string ("byte index 1 is out of bounds").  The roles the source puts it to
always slice a path whose first character is a one-byte slash, so dropping one
`Char` is the faithful byte semantics on every reachable input. -/
def rustTail (s : String) : Option String :=
  match s.data with
  | [] => none
  | _ :: rest => some (String.mk rest)

/-- `path[1..].split('/')` on the character level: splitting an empty string
yields one empty segment, exactly like Rust's `"".split('/')`. -/
def splitOnSlash (cs : List Char) : List (List Char) :=
  match cs with
  | [] => [[]]
  | c :: rest =>
    if c = '/' then [] :: splitOnSlash rest
    else
      match splitOnSlash rest with
      | [] => [[c]]
      | g :: gs => (c :: g) :: gs

/-- `Url::path_segments()`: `None` for cannot-be-a-base URLs, otherwise the
path after its leading slash split on slashes. -/
def Url.path_segments (u : Url) : Option (List String) :=
  if u.cannotBeABase then none
  else some ((splitOnSlash u.path.data.tail).map String.mk)

/-- `GitHub::GITHUB` constant from `git.rs`. -/
def GitHub.GITHUB : String := "github.com"

/-- `GitHub::convert_to_ssh_url`:
`format!("git@{}:{}.git", url.host_str().unwrap_or(Self::GITHUB), &url.path()[1..])`.
The slice `&url.path()[1..]` panics when the path is empty. -/
def GitHub.convert_to_ssh_url (url : Url) : Outcome String :=
  match rustTail url.path with
  | none => .panicked "byte index 1 is out of bounds"
  | some tail => .ok ("git@" ++ url.host.getD GitHub.GITHUB ++ ":" ++ tail ++ ".git")

/-- `GitHub::org`: collects `path_segments()` (panicking via `.expect` when
absent) and takes segment 0, with `Error::Git` when it is missing. -/
def GitHub.org (repo : Url) : Outcome String :=
  match repo.path_segments with
  | none => .panicked "repository must have path segments"
  | some segs =>
    match segs[0]? with
    | some o => .ok o
    | none => .err (.Git "the organization (or user) is missing from the github url")

/-- `GitHub::name`: segment 1 of `path_segments()`, with `Error::Git` when it
is missing and the same `.expect` panic when there are no path segments. -/
def GitHub.name (repo : Url) : Outcome String :=
  match repo.path_segments with
  | none => .panicked "repository must have path segments"
  | some segs =>
    match segs[1]? with
    | some n => .ok n
    | none => .err (.Git "the repository name is missing from the github url")

/-- `GitHub::url_api_releases`:
`format!("https://api.github.com/repos/{}/{}/releases", org?, name?)`. -/
def GitHub.url_api_releases (repo : Url) : Outcome String :=
  match GitHub.org repo with
  | .panicked m => .panicked m
  | .err e => .err e
  | .ok o =>
    match GitHub.name repo with
    | .panicked m => .panicked m
    | .err e => .err e
    | .ok n => .ok ("https://api.github.com/repos/" ++ o ++ "/" ++ n ++ "/releases")

/-- `GitHub::url_api_tag_information`:
`format!("https://api.github.com/repos/{}/{}/git/ref/tags/{}", org?, name?, tag)`. -/
def GitHub.url_api_tag_information (repo : Url) (tag_name : String) : Outcome String :=
  match GitHub.org repo with
  | .panicked m => .panicked m
  | .err e => .err e
  | .ok o =>
    match GitHub.name repo with
    | .panicked m => .panicked m
    | .err e => .err e
    | .ok n =>
      .ok ("https://api.github.com/repos/" ++ o ++ "/" ++ n ++ "/git/ref/tags/" ++ tag_name)

/-- ASCII digit test, the `\d` class of the version regex. -/
def isAsciiDigit (c : Char) : Bool :=
  '0' ≤ c && c ≤ '9'

/-- Consume a maximal run of digits, returning its length and the remainder. -/
def takeDigits : List Char → Nat × List Char
  | [] => (0, [])
  | c :: cs =>
    if isAsciiDigit c then
      let p := takeDigits cs
      (p.1 + 1, p.2)
    else (0, c :: cs)

/-- Consume `\d+\.` (at least one digit then a literal dot), returning the
remainder, or `none` when the prefix does not match. -/
def matchNumDot (cs : List Char) : Option (List Char) :=
  match takeDigits cs with
  | (0, _) => none
  | (_ + 1, r) =>
    match r with
    | [] => none
    | c :: r2 => if c = '.' then some r2 else none

/-- Whether `v\d+\.\d+\.\d+` matches a prefix of the character list.  Because
`.` is not a digit, the maximal-munch `takeDigits` is equivalent to the
regex's `\d+`. -/
def versionAt (cs : List Char) : Bool :=
  match cs with
  | [] => false
  | c :: rest =>
    if c = 'v' then
      match matchNumDot rest with
      | none => false
      | some r2 =>
        match matchNumDot r2 with
        | none => false
        | some r4 => decide (0 < (takeDigits r4).1)
    else false

/-- Whether some suffix of the character list starts a `v\d+\.\d+\.\d+` match. -/
def hasVersionSub : List Char → Bool
  | [] => false
  | c :: cs => versionAt (c :: cs) || hasVersionSub cs

/-- `Regex::new(r"v\d+\.\d+\.\d+").is_match(tag)`: the unanchored pattern
matches iff it matches at some position of the string. -/
def versionRegIsMatch (s : String) : Bool :=
  hasVersionSub s.data

/-- The early-return loop body of `Git::fetch_latest_tag` in `git.rs`: walk
the (already reversed) tag entries, skip non-UTF-8 entries (`None`), return
the first entry matched by the version regex. -/
def Git.findVersionTag : List (Option String) → Option String
  | [] => none
  | entry :: rest =>
    match entry with
    | some tag => if versionRegIsMatch tag then some tag else Git.findVersionTag rest
    | none => Git.findVersionTag rest

/-- `Git::fetch_latest_tag` (git.rs): `repo.tag_names(None).ok()?` modelled as
the input option, then the reverse-order scan. -/
def Git.fetch_latest_tag (tags : Option (List (Option String))) : Option String :=
  match tags with
  | none => none
  | some ts => Git.findVersionTag ts.reverse

/-- The early-return loop body of `fetch_latest_tag` in `src/helpers.rs`
(a verbatim duplicate of the one in `git.rs`). -/
def Helpers.findVersionTag : List (Option String) → Option String
  | [] => none
  | entry :: rest =>
    match entry with
    | some tag => if versionRegIsMatch tag then some tag else Helpers.findVersionTag rest
    | none => Helpers.findVersionTag rest

/-- `fetch_latest_tag` (src/helpers.rs), duplicating `Git::fetch_latest_tag`. -/
def Helpers.fetch_latest_tag (tags : Option (List (Option String))) : Option String :=
  match tags with
  | none => none
  | some ts => Helpers.findVersionTag ts.reverse

/-- `serde_json::Value`, restricted to the shape the source inspects. -/
inductive Json where
  | null
  | bool (b : Bool)
  | num (n : Int)
  | str (s : String)
  | arr (elems : List Json)
  | obj (fields : List (String × Json))

/-- `Value::get(key)`: field lookup on objects, `None` on any other variant. -/
def Json.get (j : Json) (key : String) : Option Json :=
  match j with
  | .obj fields => (fields.find? (fun f => f.1 == key)).map (fun f => f.2)
  | _ => none

/-- `Value::as_str()`. -/
def Json.as_str (j : Json) : Option String :=
  match j with
  | .str s => some s
  | _ => none

/-- The response-body stage of `GitHub::get_commit_sha_from_release`:
`value.get("object").and_then(|v| v.get("sha")).and_then(|v| v.as_str())
.map(to_owned).ok_or(Error::Git("the github release tag sha was not found"))`.
The HTTP request and JSON decoding preceding it are outside this model. -/
def GitHub.get_commit_sha_from_release (body : Json) : Outcome String :=
  match ((body.get "object").bind (fun v => v.get "sha")).bind Json.as_str with
  | some s => .ok s
  | none => .err (.Git "the github release tag sha was not found")

/-- The spec's description of the extraction: the string sitting at path
`object.sha` in the JSON body, when the body is an object whose `object`
field is an object whose `sha` field is a string. -/
def shaAtPath (body : Json) : Option String :=
  match body with
  | .obj fields =>
    match (fields.find? (fun f => f.1 == "object")).map (fun f => f.2) with
    | some (Json.obj inner) =>
      match (inner.find? (fun f => f.1 == "sha")).map (fun f => f.2) with
      | some (Json.str s) => some s
      | _ => none
    | _ => none
  | _ => none

/-- Externally visible actions performed by the acquisition operations:
clone attempts against the remote, checkout and head updates, and removal of
the version-control metadata directory. -/
inductive GitAction where
  | httpsAttempt
  | sshAttempt (sshUrl : String)
  | checkoutTree (objId : Nat)
  | setHeadSymbolic (refName : String)
  | setHeadDetached (objId : Nat)
  | removeGitDir
deriving DecidableEq, Repr

/-- Result of `repo.revparse_ext(&tag_version)`: the resolved object id and,
when the name resolved through an actual reference, that reference together
with its `name()` (which is `None` for a non-UTF-8 reference name). -/
structure RevResult where
  objId : Nat
  reference : Option (Option String)
deriving DecidableEq, Repr

/-- Environment supplying the outcome of every external effect reached by the
acquisition operations: `none` means success for the `Option String` fields,
`some msg` the failure carrying message `msg`.  `parseUrl` is the external
`url::Url::parse`, `revparse` the repository's revision resolution, and
`tagNames` the `repo.tag_names(None)` listing (with `none` entries for
non-UTF-8 tag names). -/
structure GitEnv where
  httpsClone : Option String
  sshClone : Option String
  configOpen : Option String
  parseUrl : String → Option Url
  revparse : String → Option RevResult
  checkoutOk : Bool
  setHeadOk : Bool
  removeDir : Option String
  tagNames : Option (List (Option String))

/-- The libgit2 failure message when cloning into an existing, non-empty
directory. -/
def cloneIntoExistingError : String :=
  "target path exists and is not an empty directory"

/-- Models the external `git2::Repository::clone` / https `RepoBuilder` clone:
libgit2 refuses to clone into a target directory that exists and is not
empty; on a fresh target the outcome comes from the environment. -/
def repositoryCloneHttps (env : GitEnv) (targetExists : Bool) : Option String :=
  match targetExists with
  | true => some cloneIntoExistingError
  | false => env.httpsClone

/-- Models the ssh `RepoBuilder` clone, with the same refusal on an existing
non-empty target directory. -/
def repositoryCloneSsh (env : GitEnv) (targetExists : Bool) : Option String :=
  match targetExists with
  | true => some cloneIntoExistingError
  | false => env.sshClone

/-- `Git::set_up_ssh_fetch_options`: opening the default git configuration can
fail, mapped to `Error::Config("Cannot open git configuration: ..")`; the
credential callback installation itself cannot fail. -/
def Git.set_up_ssh_fetch_options (env : GitEnv) : Outcome Unit :=
  match env.configOpen with
  | some e => .err (.Config ("Cannot open git configuration: " ++ e))
  | none => .ok ()

/-- `Git::ssh_clone` (git.rs): converts the URL to ssh form first, then
no-ops when the working directory exists, else prepares the credential fetch
options and clones. -/
def Git.ssh_clone (env : GitEnv) (url : Url) (targetExists : Bool)
    (_branch : Option String) : List GitAction × Outcome Unit :=
  match GitHub.convert_to_ssh_url url with
  | .panicked m => ([], .panicked m)
  | .err e => ([], .err e)
  | .ok sshUrl =>
    match targetExists with
    | true => ([], .ok ())
    | false =>
      match Git.set_up_ssh_fetch_options env with
      | .panicked m => ([], .panicked m)
      | .err e => ([], .err e)
      | .ok _ =>
        match env.sshClone with
        | some e => ([.sshAttempt sshUrl], .err (.Git2 e))
        | none => ([.sshAttempt sshUrl], .ok ())

/-- `Git::clone` (git.rs): no-op when the working directory exists; otherwise
a shallow https clone whose failure is swallowed and replaced by the ssh
fallback, whose own failure propagates with `?`. -/
def Git.clone (env : GitEnv) (url : Url) (targetExists : Bool)
    (branch : Option String) : List GitAction × Outcome Unit :=
  match targetExists with
  | true => ([], .ok ())
  | false =>
    match repositoryCloneHttps env targetExists with
    | none => ([.httpsAttempt], .ok ())
    | some _e =>
      let r := Git.ssh_clone env url targetExists branch
      (.httpsAttempt :: r.1, r.2)

/-- `Git::ssh_clone_and_degit` (git.rs): ssh fetch options first (error
propagates), then a full-depth ssh clone of the converted URL. -/
def Git.ssh_clone_and_degit (env : GitEnv) (url : Url) (targetExists : Bool) :
    List GitAction × Outcome Unit :=
  match GitHub.convert_to_ssh_url url with
  | .panicked m => ([], .panicked m)
  | .err e => ([], .err e)
  | .ok sshUrl =>
    match Git.set_up_ssh_fetch_options env with
    | .panicked m => ([], .panicked m)
    | .err e => ([], .err e)
    | .ok _ =>
      match repositoryCloneSsh env targetExists with
      | some e => ([.sshAttempt sshUrl], .err (.Git2 e))
      | none => ([.sshAttempt sshUrl], .ok ())

/-- The repository-acquisition head of `Git::clone_and_degit`:
`Repository::clone(url, target)` with its error swallowed in favour of
`ssh_clone_and_degit(Url::parse(url)?, target)?`. -/
def Git.acquireRepo (env : GitEnv) (url : String) (targetExists : Bool) :
    List GitAction × Outcome Unit :=
  match repositoryCloneHttps env targetExists with
  | none => ([.httpsAttempt], .ok ())
  | some _e =>
    match env.parseUrl url with
    | none => ([.httpsAttempt], .err .UrlParse)
    | some u =>
      let r := Git.ssh_clone_and_degit env u targetExists
      (.httpsAttempt :: r.1, r.2)

/-- The tag branch of `Git::clone_and_degit`: `revparse_ext` panicking via
`.expect("Object not found")`, `checkout_tree` via
`.expect("Failed to checkout")`, `set_head` / `set_head_detached` (with
`gref.name().unwrap()` able to panic) via `.expect("Failed to set HEAD")`,
then `fs::remove_dir_all(git_dir)?` and `Ok(Some(tag_version))`. -/
def Git.degitTag (env : GitEnv) (tagVersion : String) :
    List GitAction × Outcome (Option String) :=
  match env.revparse tagVersion with
  | none => ([], .panicked "Object not found")
  | some r =>
    match env.checkoutOk with
    | false => ([], .panicked "Failed to checkout")
    | true =>
      match r.reference with
      | some none => ([.checkoutTree r.objId], .panicked "Option::unwrap on a None value")
      | some (some refName) =>
        match env.setHeadOk with
        | false => ([.checkoutTree r.objId], .panicked "Failed to set HEAD")
        | true =>
          match env.removeDir with
          | some m => ([.checkoutTree r.objId, .setHeadSymbolic refName], .err (.Fs m))
          | none =>
            ([.checkoutTree r.objId, .setHeadSymbolic refName, .removeGitDir],
              .ok (some tagVersion))
      | none =>
        match env.setHeadOk with
        | false => ([.checkoutTree r.objId], .panicked "Failed to set HEAD")
        | true =>
          match env.removeDir with
          | some m => ([.checkoutTree r.objId, .setHeadDetached r.objId], .err (.Fs m))
          | none =>
            ([.checkoutTree r.objId, .setHeadDetached r.objId, .removeGitDir],
              .ok (some tagVersion))

/-- `Git::clone_and_degit` (git.rs): acquire the repository (https with ssh
fallback), then either the tag path or the default path that reads
`fetch_latest_tag`, removes the metadata directory and returns the tag. -/
def Git.clone_and_degit (env : GitEnv) (url : String) (targetExists : Bool)
    (tagVersion : Option String) : List GitAction × Outcome (Option String) :=
  match Git.acquireRepo env url targetExists with
  | (tr, .panicked m) => (tr, .panicked m)
  | (tr, .err e) => (tr, .err e)
  | (tr, .ok _) =>
    match tagVersion with
    | some tv =>
      let d := Git.degitTag env tv
      (tr ++ d.1, d.2)
    | none =>
      let release := Git.fetch_latest_tag env.tagNames
      match env.removeDir with
      | some m => (tr, .err (.Fs m))
      | none => (tr ++ [.removeGitDir], .ok release)

/-- `clone_and_degit` (src/helpers.rs): a plain `Repository::clone(url,
target)?` with NO ssh fallback, then `fetch_latest_tag`, metadata removal and
return of the release. -/
def Helpers.clone_and_degit (env : GitEnv) (_url : String) (targetExists : Bool) :
    List GitAction × Outcome (Option String) :=
  match repositoryCloneHttps env targetExists with
  | some e => ([.httpsAttempt], .err (.Git2 e))
  | none =>
    let release := Helpers.fetch_latest_tag env.tagNames
    match env.removeDir with
    | some m => ([.httpsAttempt], .err (.Fs m))
    | none => ([.httpsAttempt, .removeGitDir], .ok release)

/-- A concrete parsed repository URL (the test constant `BASE_PARACHAIN`). -/
def urlBase : Url :=
  ⟨some "github.com", "/r0gue-io/base-parachain", false⟩

/-- A concrete parsed repository URL (the test constant `POLKADOT_SDK`). -/
def urlSdk : Url :=
  ⟨some "github.com", "/paritytech/polkadot-sdk", false⟩

/-- An environment in which every external operation succeeds.  Field order:
httpsClone, sshClone, configOpen, parseUrl, revparse, checkoutOk, setHeadOk,
removeDir, tagNames. -/
def envOk : GitEnv :=
  ⟨none, none, none, fun _ => some urlBase,
    fun _ => some ⟨7, some (some "refs/tags/polkadot-v1.9.0")⟩,
    true, true, none,
    some (["polkadot-v1.9.0", "some-other-tag", "polkadot-v1.10.0"].map some)⟩

/-- An environment in which both the https and the ssh clone fail. -/
def envHttpsFail : GitEnv :=
  ⟨some "authentication required", some "ssh key rejected", none, fun _ => some urlBase,
    fun _ => some ⟨7, some (some "refs/tags/polkadot-v1.9.0")⟩, true, true, none, none⟩

/-- An environment in which the https clone fails and the url string is not
parseable (`Url::parse` errors), as for a malformed input url. -/
def envBadUrl : GitEnv :=
  ⟨some "unsupported URL protocol", none, none, fun _ => none, fun _ => none,
    true, true, none, none⟩

/-- An environment in which acquisition succeeds but the requested revision
does not resolve (`revparse_ext` errors). -/
def envNoRev : GitEnv :=
  ⟨none, none, none, fun _ => some urlBase, fun _ => none, true, true, none, none⟩

/-- The tag-ref response body of the repository's own
`get_releases_with_commit_sha` test. -/
def bodySha : Json :=
  Json.obj [("ref", Json.str "refs/tags/polkadot-v1.11.0"),
    ("object", Json.obj [("sha", Json.str "0bb6249268c0b77d2834640b84cb52fddd7e860"),
      ("type", Json.str "commit")])]

/-- A string with empty character data is the empty string. -/
theorem eq_empty_of_data_nil {s : String} (h : s.data = []) : s = "" :=
  String.ext (by simpa using h)

/-- On a non-empty path, the URL translation succeeds and produces
`git@<host or github.com>:<path minus its first character>.git`. -/
theorem convert_to_ssh_url_ok (u : Url) (h : u.path ≠ "") :
    GitHub.convert_to_ssh_url u =
      .ok ("git@" ++ u.host.getD GitHub.GITHUB ++ ":" ++ String.mk u.path.data.tail ++ ".git") := by
  cases hd : u.path.data with
  | nil => exact absurd (eq_empty_of_data_nil hd) h
  | cons c cs => simp [GitHub.convert_to_ssh_url, rustTail, hd]

/-- The reverse-order scan loop equals `List.find?` over the valid entries. -/
theorem findVersionTag_eq_find (l : List (Option String)) :
    Git.findVersionTag l = (l.filterMap id).find? versionRegIsMatch := by
  induction l with
  | nil => rfl
  | cons e rest ih =>
    cases e with
    | none => simpa [Git.findVersionTag] using ih
    | some tag =>
      by_cases hm : versionRegIsMatch tag
      · simp [Git.findVersionTag, hm, List.find?]
      · simp [Git.findVersionTag, hm, List.find?, ih]

/-- The two copies of the scan loop agree entry-wise. -/
theorem helpers_findVersionTag_eq_git (l : List (Option String)) :
    Helpers.findVersionTag l = Git.findVersionTag l := by
  induction l with
  | nil => rfl
  | cons e rest ih =>
    cases e with
    | none => simpa [Git.findVersionTag, Helpers.findVersionTag] using ih
    | some tag => simp [Git.findVersionTag, Helpers.findVersionTag, ih]

/-- The spec-side path lookup agrees with the source's `and_then` chain. -/
theorem shaAtPath_eq_chain (body : Json) :
    shaAtPath body = ((body.get "object").bind (fun v => Json.get v "sha")).bind Json.as_str := by
  cases body with
  | obj fields =>
    simp only [shaAtPath, Json.get]
    cases hf : (fields.find? (fun f => f.1 == "object")).map (fun f => f.2) with
    | none => rfl
    | some v =>
      cases v with
      | obj inner =>
        simp only [Option.bind, Json.get]
        cases hg : (inner.find? (fun f => f.1 == "sha")).map (fun f => f.2) with
        | none => rfl
        | some w => cases w <;> rfl
      | null => rfl
      | bool b => rfl
      | num n => rfl
      | str s => rfl
      | arr xs => rfl
  | null => rfl
  | bool b => rfl
  | num n => rfl
  | str s => rfl
  | arr xs => rfl

/-- C4 (amended): for every URL whose path is non-empty and slash-led,
`convert_to_ssh_url` returns `git@<host>:<path-without-leading-slash>.git`,
substituting `github.com` when the URL has no host; in particular on
`https://github.com/O/N` it returns `git@github.com:O/N.git` for all O, N.
It does NOT hold that the function never panics: on an empty path (reachable
through pathless non-special URLs such as `a:`) the slice `&path[1..]`
panics, which the third conjunct records. -/
theorem C4_to_ssh_amended :
    (∀ (host : Option String) (p : String) (b : Bool),
      GitHub.convert_to_ssh_url ⟨host, "/" ++ p, b⟩ =
        .ok ("git@" ++ host.getD "github.com" ++ ":" ++ p ++ ".git")) ∧
    (∀ O N : String,
      GitHub.convert_to_ssh_url ⟨some "github.com", "/" ++ O ++ "/" ++ N, false⟩ =
        .ok ("git@github.com:" ++ O ++ "/" ++ N ++ ".git")) ∧
    (∀ (host : Option String) (b : Bool),
      GitHub.convert_to_ssh_url ⟨host, "", b⟩ = .panicked "byte index 1 is out of bounds") := by
  refine ⟨fun host p b => ?_, fun O N => ?_, fun host b => rfl⟩
  · cases p with
    | mk cs => rfl
  · cases O with | mk a =>
    cases N with | mk b =>
    refine congrArg Outcome.ok (String.ext ?_)
    simp [GitHub.convert_to_ssh_url, rustTail, String.data_append, List.append_assoc]

/-- C4 counterexample: the claim asserts `to_ssh` never panics, but on the
parse result of the well-formed pathless URL `a:` (no host, empty path,
cannot-be-a-base) the slice `&url.path()[1..]` panics. -/
theorem C4_to_ssh_counterexample :
    GitHub.convert_to_ssh_url ⟨none, "", true⟩ = .panicked "byte index 1 is out of bounds" := rfl

/-- C6: on a URL whose path segments start with organization O and name N,
`url_api_releases` is exactly `https://api.github.com/repos/O/N/releases` and
`url_api_tag_information T` is exactly
`https://api.github.com/repos/O/N/git/ref/tags/T`; when the segment list is
too short to hold organization and name, both return a fatal error. -/
theorem C6_api_urls :
    (∀ (u : Url) (O N : String) (rest : List String) (T : String),
      u.path_segments = some (O :: N :: rest) →
      GitHub.url_api_releases u =
        .ok ("https://api.github.com/repos/" ++ O ++ "/" ++ N ++ "/releases") ∧
      GitHub.url_api_tag_information u T =
        .ok ("https://api.github.com/repos/" ++ O ++ "/" ++ N ++ "/git/ref/tags/" ++ T)) ∧
    (∀ (u : Url) (segs : List String),
      u.path_segments = some segs → segs.length < 2 →
      (∃ e, GitHub.url_api_releases u = .err e) ∧
      (∀ T, ∃ e, GitHub.url_api_tag_information u T = .err e)) := by
  constructor
  · intro u O N rest T h
    constructor <;>
      simp [GitHub.url_api_releases, GitHub.url_api_tag_information, GitHub.org, GitHub.name, h]
  · intro u segs h hlen
    match segs, hlen with
    | [], _ =>
      constructor
      · exact ⟨.Git "the organization (or user) is missing from the github url",
          by simp [GitHub.url_api_releases, GitHub.org, h]⟩
      · exact fun T => ⟨.Git "the organization (or user) is missing from the github url",
          by simp [GitHub.url_api_tag_information, GitHub.org, h]⟩
    | [o], _ =>
      constructor
      · exact ⟨.Git "the repository name is missing from the github url",
          by simp [GitHub.url_api_releases, GitHub.org, GitHub.name, h]⟩
      · exact fun T => ⟨.Git "the repository name is missing from the github url",
          by simp [GitHub.url_api_tag_information, GitHub.org, GitHub.name, h]⟩

/-- C6 witness: the concrete `polkadot-sdk` URL of the repository tests. -/
theorem C6_api_urls_witness :
    GitHub.url_api_releases urlSdk =
      .ok "https://api.github.com/repos/paritytech/polkadot-sdk/releases" ∧
    GitHub.url_api_tag_information urlSdk "polkadot-v1.11.0" =
      .ok "https://api.github.com/repos/paritytech/polkadot-sdk/git/ref/tags/polkadot-v1.11.0" := by
  have h := C6_api_urls.1 urlSdk "paritytech" "polkadot-sdk" [] "polkadot-v1.11.0" (by decide)
  exact ⟨h.1.trans (by decide), h.2.trans (by decide)⟩

theorem takeDigits_spec (cs : List Char) :
    ∃ d r, takeDigits cs = (d.length, r) ∧ cs = d ++ r ∧ ∀ c ∈ d, isAsciiDigit c = true := by
  induction cs with
  | nil => exact ⟨[], [], rfl, rfl, by simp⟩
  | cons c cs ih =>
    by_cases hd : isAsciiDigit c
    · obtain ⟨d, r, h1, h2, h3⟩ := ih
      refine ⟨c :: d, r, ?_, by simp [h2], ?_⟩
      · simp [takeDigits, hd, h1]
      · intro x hx
        rcases List.mem_cons.mp hx with hx | hx
        · simpa [hx] using hd
        · exact h3 x hx
    · exact ⟨[], c :: cs, by simp [takeDigits, hd], rfl, by simp⟩

theorem takeDigits_append_dot (d t : List Char) (hd : ∀ c ∈ d, isAsciiDigit c = true) :
    takeDigits (d ++ '.' :: t) = (d.length, '.' :: t) := by
  induction d with
  | nil => simp [takeDigits, isAsciiDigit]
  | cons c d ih =>
    have hc : isAsciiDigit c = true := hd c (by simp)
    simp [takeDigits, hc, ih (fun x hx => hd x (by simp [hx]))]

theorem takeDigits_pos_of_digit (c : Char) (rest : List Char) (hc : isAsciiDigit c = true) :
    0 < (takeDigits (c :: rest)).1 := by
  simp [takeDigits, hc]

theorem matchNumDot_construct (d t : List Char) (hne : d ≠ [])
    (hd : ∀ c ∈ d, isAsciiDigit c = true) :
    matchNumDot (d ++ '.' :: t) = some t := by
  match d, hne with
  | x :: xs, _ =>
    rw [matchNumDot, takeDigits_append_dot (x :: xs) t hd]
    simp

theorem matchNumDot_some (cs t : List Char) (h : matchNumDot cs = some t) :
    ∃ d, cs = d ++ '.' :: t ∧ d ≠ [] ∧ ∀ c ∈ d, isAsciiDigit c = true := by
  obtain ⟨d, r, h1, h2, h3⟩ := takeDigits_spec cs
  rw [matchNumDot, h1] at h
  match d, r, h2, h3, h with
  | [], r, h2, h3, h => exact absurd h (by simp)
  | x :: xs, [], h2, h3, h => exact absurd h (by simp)
  | x :: xs, c :: r2, h2, h3, h =>
    by_cases hc : c = '.'
    · refine ⟨x :: xs, ?_, by simp, h3⟩
      have ht : r2 = t := by simpa [hc] using h
      rw [h2, hc, ht]
    · exact absurd h (by simp [hc])

theorem hasVersionSub_append (pre cs : List Char) (h : hasVersionSub cs = true) :
    hasVersionSub (pre ++ cs) = true := by
  induction pre with
  | nil => simpa using h
  | cons c p ih => simp [hasVersionSub, ih]

theorem hasVersionSub_split (cs : List Char) (h : hasVersionSub cs = true) :
    ∃ pre suf, cs = pre ++ suf ∧ versionAt suf = true := by
  induction cs with
  | nil => exact absurd h (by simp [hasVersionSub])
  | cons c cs ih =>
    rcases Bool.or_eq_true_iff.mp (by simpa [hasVersionSub] using h) with hv | hrest
    · exact ⟨[], c :: cs, rfl, hv⟩
    · obtain ⟨pre, suf, he, hv⟩ := ih hrest
      exact ⟨c :: pre, suf, by simp [he], hv⟩

theorem versionAt_construct (a b c post : List Char)
    (hna : a ≠ []) (hnb : b ≠ []) (hnc : c ≠ [])
    (da : ∀ x ∈ a, isAsciiDigit x = true) (db : ∀ x ∈ b, isAsciiDigit x = true)
    (dc : ∀ x ∈ c, isAsciiDigit x = true) :
    versionAt ('v' :: (a ++ '.' :: (b ++ '.' :: (c ++ post)))) = true := by
  have h1 := matchNumDot_construct a (b ++ '.' :: (c ++ post)) hna da
  have h2 := matchNumDot_construct b (c ++ post) hnb db
  have h3 : 0 < (takeDigits (c ++ post)).1 := by
    match c, hnc with
    | y :: ys, _ => exact takeDigits_pos_of_digit y (ys ++ post) (dc y (by simp))
  simp [versionAt, h1, h2, h3]

theorem versionAt_split (cs : List Char) (h : versionAt cs = true) :
    ∃ a b c post, cs = 'v' :: (a ++ '.' :: (b ++ '.' :: (c ++ post))) ∧
      a ≠ [] ∧ b ≠ [] ∧ c ≠ [] ∧
      (∀ x ∈ a, isAsciiDigit x = true) ∧ (∀ x ∈ b, isAsciiDigit x = true) ∧
      (∀ x ∈ c, isAsciiDigit x = true) := by
  match cs with
  | [] => exact absurd h (by simp [versionAt])
  | x :: rest =>
    simp only [versionAt] at h
    by_cases hx : x = 'v'
    · rw [if_pos hx] at h
      cases hm : matchNumDot rest with
      | none => simp [hm] at h
      | some r2 =>
        simp only [hm] at h
        cases hm2 : matchNumDot r2 with
        | none => simp [hm2] at h
        | some r4 =>
          simp only [hm2] at h
          have hpos : 0 < (takeDigits r4).1 := by simpa using h
          obtain ⟨a, ha, hna, da⟩ := matchNumDot_some rest r2 hm
          obtain ⟨b, hb, hnb, db⟩ := matchNumDot_some r2 r4 hm2
          obtain ⟨d, r, hd1, hd2, hd3⟩ := takeDigits_spec r4
          have hdne : d ≠ [] := by
            intro hnil
            rw [hd1] at hpos
            simp [hnil] at hpos
          refine ⟨a, b, d, r, ?_, hna, hnb, hdne, da, db, hd3⟩
          rw [hx, ha, hb, hd2]
    · rw [if_neg hx] at h
      exact absurd h (by simp)

/-- The translated matcher agrees with the declarative reading of the regex:
a string matches iff its characters contain a substring of shape
`v`, one or more digits, `.`, one or more digits, `.`, one or more digits. -/
theorem versionRegIsMatch_iff (s : String) :
    versionRegIsMatch s = true ↔
      ∃ pre a b c post : List Char,
        s.data = pre ++ 'v' :: (a ++ '.' :: (b ++ '.' :: (c ++ post))) ∧
        a ≠ [] ∧ b ≠ [] ∧ c ≠ [] ∧
        (∀ x ∈ a, isAsciiDigit x = true) ∧ (∀ x ∈ b, isAsciiDigit x = true) ∧
        (∀ x ∈ c, isAsciiDigit x = true) := by
  constructor
  · intro h
    obtain ⟨pre, suf, he, hv⟩ := hasVersionSub_split s.data h
    obtain ⟨a, b, c, post, hsuf, hna, hnb, hnc, da, db, dc⟩ := versionAt_split suf hv
    exact ⟨pre, a, b, c, post, by rw [he, hsuf], hna, hnb, hnc, da, db, dc⟩
  · intro ⟨pre, a, b, c, post, he, hna, hnb, hnc, da, db, dc⟩
    rw [versionRegIsMatch, he]
    refine hasVersionSub_append pre _ ?_
    have hv := versionAt_construct a b c post hna hnb hnc da db dc
    simp [hasVersionSub, hv]

/-- The scan loop on all-valid entries is `List.find?`. -/
theorem findVersionTag_map_some (l : List String) :
    Git.findVersionTag (l.map some) = l.find? versionRegIsMatch := by
  induction l with
  | nil => rfl
  | cons t rest ih =>
    by_cases hm : versionRegIsMatch t
    · simp [Git.findVersionTag, hm, List.find?]
    · simp [Git.findVersionTag, hm, List.find?, ih]

/-- C3: on a tag sequence, `fetch_latest_tag` scans from the last element to
the first and returns the first entry containing a `v\d+\.\d+\.\d+` match
(`List.find?` over the reversed sequence); when no entry matches it returns
none; on the spec's example sequence it returns `polkadot-v1.10.0`; and the
matcher holds exactly on strings containing a substring of shape `v`,
digits, dot, digits, dot, digits. -/
theorem C3_latest_version_tag (ts : List String) :
    Git.fetch_latest_tag (some (ts.map some)) = ts.reverse.find? versionRegIsMatch ∧
    ((∀ t ∈ ts, versionRegIsMatch t = false) →
      Git.fetch_latest_tag (some (ts.map some)) = none) ∧
    Git.fetch_latest_tag
        (some (["polkadot-v1.9.0", "some-other-tag", "polkadot-v1.10.0"].map some)) =
      some "polkadot-v1.10.0" ∧
    (∀ s : String, versionRegIsMatch s = true ↔
      ∃ pre a b c post : List Char,
        s.data = pre ++ 'v' :: (a ++ '.' :: (b ++ '.' :: (c ++ post))) ∧
        a ≠ [] ∧ b ≠ [] ∧ c ≠ [] ∧
        (∀ x ∈ a, isAsciiDigit x = true) ∧ (∀ x ∈ b, isAsciiDigit x = true) ∧
        (∀ x ∈ c, isAsciiDigit x = true)) := by
  have hmain : Git.fetch_latest_tag (some (ts.map some)) = ts.reverse.find? versionRegIsMatch := by
    show Git.findVersionTag (ts.map some).reverse = ts.reverse.find? versionRegIsMatch
    rw [← List.map_reverse, findVersionTag_map_some]
  refine ⟨hmain, fun hnone => ?_, by decide, versionRegIsMatch_iff⟩
  rw [hmain, List.find?_eq_none]
  intro t ht
  simp [hnone t (List.mem_reverse.mp ht)]

/-- C3 witness: the example sequence instantiates the general scan law. -/
theorem C3_latest_version_tag_witness :
    Git.fetch_latest_tag
        (some (["polkadot-v1.9.0", "some-other-tag", "polkadot-v1.10.0"].map some)) =
      ["polkadot-v1.9.0", "some-other-tag", "polkadot-v1.10.0"].reverse.find?
        versionRegIsMatch :=
  (C3_latest_version_tag ["polkadot-v1.9.0", "some-other-tag", "polkadot-v1.10.0"]).1

/-- C10: the duplicated latest-tag scan in `src/helpers.rs` returns the same
result as the one in `git.rs` on every tag listing. -/
theorem C10_fetch_latest_tag_duplicate (tags : Option (List (Option String))) :
    Helpers.fetch_latest_tag tags = Git.fetch_latest_tag tags := by
  cases tags with
  | none => rfl
  | some ts => simp [Git.fetch_latest_tag, Helpers.fetch_latest_tag, helpers_findVersionTag_eq_git]

/-- C7: `get_commit_sha_from_release` returns exactly the string at path
`object.sha` of the response body; on every body where that path is absent it
returns the `Error::Git` value with message "the github release tag sha was
not found"; and it never panics on any body. -/
theorem C7_commit_sha (body : Json) :
    (∀ s, shaAtPath body = some s → GitHub.get_commit_sha_from_release body = .ok s) ∧
    (shaAtPath body = none →
      GitHub.get_commit_sha_from_release body =
        .err (.Git "the github release tag sha was not found")) ∧
    (∀ m, GitHub.get_commit_sha_from_release body ≠ .panicked m) := by
  have hchain := shaAtPath_eq_chain body
  refine ⟨fun s hs => ?_, fun hn => ?_, fun m => ?_⟩
  · rw [hs] at hchain
    simp [GitHub.get_commit_sha_from_release, ← hchain]
  · rw [hn] at hchain
    simp [GitHub.get_commit_sha_from_release, ← hchain]
  · unfold GitHub.get_commit_sha_from_release
    cases ((body.get "object").bind (fun v => Json.get v "sha")).bind Json.as_str <;> simp

/-- C7 witness: the repository test's tag-ref payload yields its sha, and an
empty object yields the missing-field error. -/
theorem C7_commit_sha_witness :
    GitHub.get_commit_sha_from_release bodySha = .ok "0bb6249268c0b77d2834640b84cb52fddd7e860" ∧
    GitHub.get_commit_sha_from_release (Json.obj []) =
      .err (.Git "the github release tag sha was not found") :=
  ⟨(C7_commit_sha bodySha).1 _ rfl, (C7_commit_sha (Json.obj [])).2.1 rfl⟩

/-- C1 (amended): `Git::clone` on an existing target path is a no-op success
making no clone attempt; but `Git::clone_and_degit` performs NO existence
check — called against an already-populated target it attempts the clone,
which libgit2 refuses on the populated directory, the ssh fallback is refused
for the same reason, and that error is returned: the second call errors
instead of no-opping. -/
theorem C1_existing_target_amended :
    (∀ (env : GitEnv) (u : Url) (branch : Option String),
      Git.clone env u true branch = ([], .ok ())) ∧
    (∀ (env : GitEnv) (url : String) (u : Url) (tag : Option String),
      env.parseUrl url = some u → u.path ≠ "" → env.configOpen = none →
      (Git.clone_and_degit env url true tag).2 = .err (.Git2 cloneIntoExistingError)) := by
  refine ⟨fun env u branch => rfl, fun env url u tag hp hpath hc => ?_⟩
  have hs := convert_to_ssh_url_ok u hpath
  simp [Git.clone_and_degit, Git.acquireRepo, repositoryCloneHttps, Git.ssh_clone_and_degit,
    Git.set_up_ssh_fetch_options, repositoryCloneSsh, hp, hc, hs]

/-- C1 counterexample: even in an environment in which every external
operation succeeds, `clone_and_degit` against an existing populated target
returns an error, contradicting the claim that the second call "succeeds
without error and without re-cloning". -/
theorem C1_counterexample :
    (Git.clone_and_degit envOk "https://github.com/r0gue-io/base-parachain" true none).2 =
      .err (.Git2 cloneIntoExistingError) := rfl

/-- C1 witness: the amended `clone_and_degit` statement at the concrete
all-success environment. -/
theorem C1_existing_target_witness :
    (Git.clone_and_degit envOk "https://github.com/r0gue-io/base-parachain" true (some "v1")).2 =
      .err (.Git2 cloneIntoExistingError) :=
  C1_existing_target_amended.2 envOk "https://github.com/r0gue-io/base-parachain" urlBase
    (some "v1") rfl (by decide) rfl

/-- C2 (amended): when the https clone fails, the https failure is swallowed
and never returned on its own.  In `Git::clone` (already-parsed URL with a
non-empty path) the ssh clone of the translated URL is attempted, a
successful fallback yields success, and an ssh failure is returned as the
final error with no further retry.  In `Git::clone_and_degit` the same holds
provided the url string parses; when `Url::parse` fails, the parse error (not
the https error) is returned and NO ssh attempt occurs — this last case is
what forces the amendment. -/
theorem C2_https_fallback_amended :
    (∀ (env : GitEnv) (u : Url) (branch : Option String) (e : String),
      env.httpsClone = some e → u.path ≠ "" → env.configOpen = none →
      (∃ s, GitHub.convert_to_ssh_url u = .ok s ∧
        (Git.clone env u false branch).1 = [.httpsAttempt, .sshAttempt s]) ∧
      (env.sshClone = none → (Git.clone env u false branch).2 = .ok ()) ∧
      (∀ e2, env.sshClone = some e2 → (Git.clone env u false branch).2 = .err (.Git2 e2))) ∧
    (∀ (env : GitEnv) (url : String) (u : Url) (tag : Option String) (e e2 : String),
      env.httpsClone = some e → env.parseUrl url = some u → u.path ≠ "" →
      env.configOpen = none → env.sshClone = some e2 →
      (Git.clone_and_degit env url false tag).2 = .err (.Git2 e2) ∧
      (∃ s, GitHub.convert_to_ssh_url u = .ok s ∧
        (Git.clone_and_degit env url false tag).1 = [.httpsAttempt, .sshAttempt s])) ∧
    (∀ (env : GitEnv) (url : String) (tag : Option String) (e : String),
      env.httpsClone = some e → env.parseUrl url = none →
      Git.clone_and_degit env url false tag = ([.httpsAttempt], .err .UrlParse)) := by
  refine ⟨fun env u branch e hh hpath hc => ?_,
    fun env url u tag e e2 hh hp hpath hc h2 => ?_,
    fun env url tag e hh hp => ?_⟩
  · have hs := convert_to_ssh_url_ok u hpath
    refine ⟨⟨_, hs, ?_⟩, fun hok => ?_, fun e2 h2 => ?_⟩
    · cases hs2 : env.sshClone <;>
        simp [Git.clone, Git.ssh_clone, repositoryCloneHttps, Git.set_up_ssh_fetch_options,
          hh, hc, hs, hs2]
    · simp [Git.clone, Git.ssh_clone, repositoryCloneHttps, Git.set_up_ssh_fetch_options,
        hh, hc, hs, hok]
    · simp [Git.clone, Git.ssh_clone, repositoryCloneHttps, Git.set_up_ssh_fetch_options,
        hh, hc, hs, h2]
  · have hs := convert_to_ssh_url_ok u hpath
    refine ⟨?_, ⟨_, hs, ?_⟩⟩ <;>
      simp [Git.clone_and_degit, Git.acquireRepo, repositoryCloneHttps, Git.ssh_clone_and_degit,
        Git.set_up_ssh_fetch_options, repositoryCloneSsh, hh, hp, hc, h2, hs]
  · simp [Git.clone_and_degit, Git.acquireRepo, repositoryCloneHttps, hh, hp]

/-- C2 counterexample: the https clone fails on an unparseable url string,
yet no ssh clone is attempted — the whole trace is the single https attempt
and the returned error is the URL-parse error; this refutes the claim that an
ssh clone is attempted whenever the https attempt fails. -/
theorem C2_counterexample :
    Git.clone_and_degit envBadUrl "http://[bad" false none =
      ([.httpsAttempt], .err .UrlParse) := rfl

/-- C2 witness: with https and ssh both failing on a parsed URL, the ssh
error is the one returned; with https failing on an unparseable url, the
parse error is returned. -/
theorem C2_https_fallback_witness :
    (Git.clone envHttpsFail urlBase false none).2 = .err (.Git2 "ssh key rejected") ∧
    Git.clone_and_degit envBadUrl "http://[bad" false (some "v1") =
      ([.httpsAttempt], .err .UrlParse) :=
  ⟨(C2_https_fallback_amended.1 envHttpsFail urlBase none "authentication required"
      rfl (by decide) rfl).2.2 "ssh key rejected" rfl,
    C2_https_fallback_amended.2.2 envBadUrl "http://[bad" (some "v1")
      "unsupported URL protocol" rfl rfl⟩

/-- C5 (amended): when the supplied tag or commit cannot be resolved,
`clone_and_degit` does not return an error value at all — it PANICS via
`.expect("Object not found")`; on that path the version-control metadata
directory is indeed not deleted (the claim's second half holds). -/
theorem C5_revision_not_found_amended (env : GitEnv) (url tv : String)
    (hh : env.httpsClone = none) (hr : env.revparse tv = none) :
    (Git.clone_and_degit env url false (some tv)).2 = .panicked "Object not found" ∧
    GitAction.removeGitDir ∉ (Git.clone_and_degit env url false (some tv)).1 := by
  simp [Git.clone_and_degit, Git.acquireRepo, repositoryCloneHttps, Git.degitTag, hh, hr]

/-- C5 counterexample: a concrete run with an unresolvable revision ends in
the panic `Object not found`, not in a returned `RevisionNotFound` error —
refuting "it returns the fatal error ... (it does not panic)". -/
theorem C5_counterexample :
    (Git.clone_and_degit envNoRev "https://github.com/r0gue-io/base-parachain" false
        (some "v9.9.9")).2 =
      .panicked "Object not found" := rfl

/-- C5 witness: the amended statement at the concrete environment whose
revision resolution fails. -/
theorem C5_revision_not_found_witness :
    (Git.clone_and_degit envNoRev "https://github.com/r0gue-io/base-parachain" false
        (some "v0.1.0")).2 = .panicked "Object not found" ∧
    GitAction.removeGitDir ∉
      (Git.clone_and_degit envNoRev "https://github.com/r0gue-io/base-parachain" false
        (some "v0.1.0")).1 :=
  C5_revision_not_found_amended envNoRev "https://github.com/r0gue-io/base-parachain"
    "v0.1.0" rfl rfl

/-- C8: with a resolvable tag and all effects succeeding, `clone_and_degit`
checks out the resolved tree, sets the head symbolically when the revision
resolved through an actual reference and detached when it resolved to a bare
commit, deletes the metadata directory, and returns Some of exactly the
supplied tag; the metadata directory is also deleted on the successful
no-tag path. -/
theorem C8_degit_checkout :
    (∀ (env : GitEnv) (url tv : String) (r : RevResult) (nm : String),
      env.httpsClone = none → env.revparse tv = some r → r.reference = some (some nm) →
      env.checkoutOk = true → env.setHeadOk = true → env.removeDir = none →
      Git.clone_and_degit env url false (some tv) =
        ([.httpsAttempt, .checkoutTree r.objId, .setHeadSymbolic nm, .removeGitDir],
          .ok (some tv))) ∧
    (∀ (env : GitEnv) (url tv : String) (r : RevResult),
      env.httpsClone = none → env.revparse tv = some r → r.reference = none →
      env.checkoutOk = true → env.setHeadOk = true → env.removeDir = none →
      Git.clone_and_degit env url false (some tv) =
        ([.httpsAttempt, .checkoutTree r.objId, .setHeadDetached r.objId, .removeGitDir],
          .ok (some tv))) ∧
    (∀ (env : GitEnv) (url : String),
      env.httpsClone = none → env.removeDir = none →
      Git.clone_and_degit env url false none =
        ([.httpsAttempt, .removeGitDir], .ok (Git.fetch_latest_tag env.tagNames))) := by
  refine ⟨fun env url tv r nm hh hr href hco hsh hrd => ?_,
    fun env url tv r hh hr href hco hsh hrd => ?_,
    fun env url hh hrd => ?_⟩ <;>
    simp [Git.clone_and_degit, Git.acquireRepo, repositoryCloneHttps, Git.degitTag,
      hh, hrd] <;>
    simp [Git.degitTag, *]

/-- C8 witness: the symbolic-reference branch at the all-success
environment. -/
theorem C8_degit_checkout_witness :
    Git.clone_and_degit envOk "https://github.com/r0gue-io/base-parachain" false
        (some "polkadot-v1.9.0") =
      ([.httpsAttempt, .checkoutTree 7, .setHeadSymbolic "refs/tags/polkadot-v1.9.0",
          .removeGitDir],
        .ok (some "polkadot-v1.9.0")) :=
  C8_degit_checkout.1 envOk "https://github.com/r0gue-io/base-parachain" "polkadot-v1.9.0"
    ⟨7, some (some "refs/tags/polkadot-v1.9.0")⟩ "refs/tags/polkadot-v1.9.0"
    rfl rfl rfl rfl rfl rfl

/-- C9: the package-level `clone_and_degit` of `src/helpers.rs` performs no
ssh fallback — an https clone failure is returned directly and its trace
holds only the https attempt — while `Git::clone_and_degit` in `git.rs`
attempts an ssh clone of the translated URL in the same situation. -/
theorem C9_no_ssh_fallback :
    (∀ (env : GitEnv) (url : String) (e : String),
      env.httpsClone = some e →
      Helpers.clone_and_degit env url false = ([.httpsAttempt], .err (.Git2 e))) ∧
    (∀ (env : GitEnv) (url : String) (u : Url) (e : String),
      env.httpsClone = some e → env.parseUrl url = some u → u.path ≠ "" →
      env.configOpen = none →
      ∃ s, GitHub.convert_to_ssh_url u = .ok s ∧
        GitAction.sshAttempt s ∈ (Git.clone_and_degit env url false none).1) := by
  refine ⟨fun env url e hh => ?_, fun env url u e hh hp hpath hc => ?_⟩
  · simp [Helpers.clone_and_degit, repositoryCloneHttps, hh]
  · have hs := convert_to_ssh_url_ok u hpath
    refine ⟨_, hs, ?_⟩
    cases hs2 : env.sshClone <;> cases hrd : env.removeDir <;>
      simp [Git.clone_and_degit, Git.acquireRepo, repositoryCloneHttps,
        Git.ssh_clone_and_degit, Git.set_up_ssh_fetch_options, repositoryCloneSsh,
        hh, hp, hc, hs, hs2, hrd]

/-- C9 witness: the helpers-level operation returns the https failure
directly at the concrete failing environment. -/
theorem C9_no_ssh_fallback_witness :
    Helpers.clone_and_degit envHttpsFail "https://github.com/r0gue-io/base-parachain" false =
      ([.httpsAttempt], .err (.Git2 "authentication required")) :=
  C9_no_ssh_fallback.1 envHttpsFail "https://github.com/r0gue-io/base-parachain"
    "authentication required" rfl
